import Mathlib

/-!
Verification of the APTDacManager device-addressing and conversion layer.

The definitions below are a shallow embedding of `DacMaster.py` and of the
batch / directory logic of `cmdUI.py`.  Python floats are modelled by exact
rationals (every quantity the code manipulates is a small decimal or a
ratio of small integers), machine integers by `Nat`/`Int`, raised
exceptions by `Option`/`Except`, and the Modbus register file by a total
function from register address to the 16-bit value it holds.
-/

namespace APTDac

/-- Python `int(...)` applied to a float: truncation toward zero. -/
def intTrunc (q : ℚ) : ℤ := if 0 ≤ q then ⌊q⌋ else ⌈q⌉

/-- `DacMaster.convertToActualV`: `rawV * 60.0/4096.0`. -/
def convertToActualV (rawV : ℚ) : ℚ := rawV * 60.0 / 4096.0

/-- `DacMaster.convertToRawV`: raises `ValueError` (here `none`) when
`actualV < 0 or actualV > 60`; otherwise `rawV = int(actualV * 4096.0/60.0)`
and the result is `rawV if rawV < 4096 else 4095`. -/
def convertToRawV (actualV : ℚ) : Option ℤ :=
  if actualV < 0 ∨ actualV > 60 then none
  else
    let rawV : ℤ := intTrunc (actualV * 4096.0 / 60.0)
    some (if rawV < 4096 then rawV else 4095)

/-- `DacMaster.convertToDegC`: sentinel `-127` when
`rawTemp <= TEMP_DEVICE_DISCONNECTED_RAW = -7040`, else `rawTemp * 0.0078125`. -/
def convertToDegC (rawTemp : ℤ) : ℚ :=
  if rawTemp ≤ -7040 then -127 else (rawTemp : ℚ) * 0.0078125

/-- `DacMaster.address`:
`numBoards*4*2*sipmChan + (4*2*boardNum + (4*dacNum + dacChan))`. -/
def address (numBoards dacChan dacNum boardNum sipmChan : ℕ) : ℕ :=
  numBoards*4*2*sipmChan + (4*2*boardNum + (4*dacNum + dacChan))

/-- Register address read by `DacMaster.initT`: `self.numBoards*2*4`. -/
def initT_address (numBoards : ℕ) : ℕ := numBoards*2*4

/-- `DacMaster.initT`: reads the sensor-count register and de-biases the
16-bit unsigned transport value by `-32768`. -/
def initT (numBoards : ℕ) (regs : ℕ → ℕ) : ℤ :=
  (regs (initT_address numBoards) : ℤ) - 32768

/-- Base register address computed by `DacMaster.getTSerial`:
`1 + self.numBoards*2*4 + int(i)*4`. -/
def getTSerial_address (numBoards i : ℕ) : ℕ := 1 + numBoards*2*4 + i*4

/-- Python `v.to_bytes(2, "big")` for a 16-bit register value. -/
def toBytes2BE (v : ℕ) : List ℕ := [v / 256 % 256, v % 256]

/-- `DacMaster.getTSerial`: concatenates the big-endian byte pairs of the
four consecutive registers starting at `getTSerial_address` (the list
comprehension's loop variable shadows the sensor index, reading offsets
`0..3`). -/
def getTSerial (numBoards : ℕ) (regs : ℕ → ℕ) (i : ℕ) : List ℕ :=
  ((List.range 4).map (fun k => toBytes2BE (regs (getTSerial_address numBoards i + k)))).flatten

/-- Register address read by `DacMaster.getT`: `1 + self.numBoards*2*4 + int(i)*4`. -/
def getT_address (numBoards i : ℕ) : ℕ := 1 + numBoards*2*4 + i*4

/-- `DacMaster.getT`: raises `ValueError` for a negative index, otherwise
reads the sensor's first register and de-biases it by `-32768`. -/
def getT (numBoards : ℕ) (regs : ℕ → ℕ) (i : ℤ) : Except String ℤ :=
  if i < 0 then Except.error "ValueError"
  else Except.ok ((regs (getT_address numBoards i.toNat) : ℤ) - 32768)

/-- Spec formula: `tempCountAddress(boardCount) = boardCount*2*4`. -/
def tempCountAddress (boardCount : ℕ) : ℕ := boardCount*2*4

/-- Spec formula:
`tempSensorAddress(boardCount, sensorIndex, registerOffset) =
 1 + boardCount*2*4 + sensorIndex*4 + registerOffset`. -/
def tempSensorAddress (boardCount sensorIndex registerOffset : ℕ) : ℕ :=
  1 + boardCount*2*4 + sensorIndex*4 + registerOffset

/-- Python `line.partition('#')[0]`: the characters before the first `#`. -/
def takeBeforeHash : List Char → List Char
  | [] => []
  | c :: cs => if c = '#' then [] else c :: takeBeforeHash cs

/-- Worker for Python `str.split()`: accumulates the current word (reversed)
and emits words between whitespace runs. -/
def splitWSAux : List Char → List Char → List (List Char)
  | [], acc => if acc.isEmpty then [] else [acc.reverse]
  | c :: cs, acc =>
    if c.isWhitespace then
      if acc.isEmpty then splitWSAux cs [] else acc.reverse :: splitWSAux cs []
    else splitWSAux cs (c :: acc)

/-- Python `str.split()` with no argument: whitespace-separated words,
empty words dropped. -/
def splitWS (cs : List Char) : List (List Char) := splitWSAux cs []

/-- Value of a decimal digit character, `none` for a non-digit. -/
def digitVal (c : Char) : Option ℕ :=
  if '0' ≤ c ∧ c ≤ '9' then some (c.toNat - Char.toNat '0') else none

/-- Accumulates decimal digits; fails on the first non-digit. -/
def parseNatAux : List Char → ℕ → Option ℕ
  | [], acc => some acc
  | c :: cs, acc =>
    match digitVal c with
    | some d => parseNatAux cs (acc*10 + d)
    | none => none

/-- Parses a nonempty all-digit word. -/
def parseNat (cs : List Char) : Option ℕ :=
  if cs.isEmpty then none else parseNatAux cs 0

/-- Python `int(token)` on a whitespace-free token: an optional sign
followed by decimal digits, `ValueError` (here `none`) otherwise. -/
def pyParseInt : List Char → Option ℤ
  | '-' :: rest => (parseNat rest).map (fun n => -(n : ℤ))
  | '+' :: rest => (parseNat rest).map (fun n => (n : ℤ))
  | cs => (parseNat cs).map (fun n => (n : ℤ))

/-- Python `dict` lookup on an insertion-ordered association list whose
keys are kept unique by `dictUpdate`. -/
def dictGet {α : Type} : List (String × α) → String → Option α
  | [], _ => none
  | (a, v) :: rest, k => if a = k then some v else dictGet rest k

/-- Python `dict[k] = v`: replaces the value in place when the key exists,
otherwise appends the new binding (insertion order preserved). -/
def dictUpdate {α : Type} : List (String × α) → String → α → List (String × α)
  | [], k, v => [(k, v)]
  | (a, w) :: rest, k, v =>
    if a = k then (a, v) :: rest else (a, w) :: dictUpdate rest k v

/-- The DAC alias directory built by `cmdUI.init`: alias to the tuple of
integer coordinate components. -/
abbrev DacDict := List (String × List ℤ)

/-- One iteration of the `cmdUI.init` DAC-directory loop: strip the
comment, skip a blank line, otherwise
`addressDict[entries[0]] = tuple(int(i) for i in entries[1:])`, with a
failed `int(...)` raising `ValueError` (here `Except.error`). -/
def parseDacLine (d : DacDict) (line : List Char) : Except Unit DacDict :=
  match splitWS (takeBeforeHash line) with
  | [] => Except.ok d
  | a :: vs =>
    match vs.mapM pyParseInt with
    | some ints => Except.ok (dictUpdate d (String.mk a) ints)
    | none => Except.error ()

/-- The `cmdUI.init` DAC-directory loop over all lines of the file. -/
def parseDac (lines : List (List Char)) : Except Unit DacDict :=
  lines.foldlM parseDacLine []

/-- A DAC-channel coordinate tuple as stored in the directory and passed
positionally to `DacMaster.address`: `(dacChan, dacNum, boardNum)`. -/
abbrev Coord := ℕ × ℕ × ℕ

/-- The directory used by the batch commands of `cmdUI.py`. -/
abbrev ChanDict := List (String × Coord)

/-- `cntrl.address(*addressDict[chan])` for a 3-tuple entry
(`sipmChan` takes its Python default `0`). -/
def addrOf (numBoards : ℕ) (c : Coord) : ℕ := address numBoards c.1 c.2.1 c.2.2 0

/-- Observable actions of one `cmdUI.py` command run, in program order. -/
inductive Ev where
  | powerUp (addr : ℕ)
  | getPower (addr : ℕ)
  | writeReg (addr : ℕ) (val : ℤ)
  | readV (addr : ℕ)
  | readCount
  | raiseError
  | close
deriving DecidableEq

/-- How a batch command run ends. -/
inductive Outcome where
  | ok
  | aliasErr (tok : String)
  | valueErr
deriving DecidableEq

/-- The token loop of `cmdUI.powUp`: for each token, look the alias up
(`KeyError` aborts with `cntrl.close(); exit(1)`), else issue
`cntrl.powerUp` then `cntrl.getPower` for the printout; after the last
token `cntrl.close()`. -/
def powUpLoop (numBoards : ℕ) (d : ChanDict) : List String → List Ev × Outcome
  | [] => ([Ev.close], Outcome.ok)
  | t :: rest =>
    match dictGet d t with
    | none => ([Ev.close], Outcome.aliasErr t)
    | some c =>
      let a := addrOf numBoards c
      let p := powUpLoop numBoards d rest
      (Ev.powerUp a :: Ev.getPower a :: p.1, p.2)

/-- The token loop of `cmdUI.updateV`: for each token, look the alias up
(`KeyError` aborts with `cntrl.close(); exit(1)`), convert the requested
voltage (an uncaught `ValueError` aborts with no close), else issue the
register write then `cntrl.readV` for the printout; after the last token
`cntrl.close()`. -/
def updateVLoop (numBoards : ℕ) (d : ChanDict) (newV : ℚ) :
    List String → List Ev × Outcome
  | [] => ([Ev.close], Outcome.ok)
  | t :: rest =>
    match dictGet d t with
    | none => ([Ev.close], Outcome.aliasErr t)
    | some c =>
      match convertToRawV newV with
      | none => ([], Outcome.valueErr)
      | some raw =>
        let a := addrOf numBoards c
        let p := updateVLoop numBoards d newV rest
        (Ev.writeReg a raw :: Ev.readV a :: p.1, p.2)

/-- The longest prefix of the token list whose every token is in the
directory. -/
def resolvedPart (d : ChanDict) : List String → List String
  | [] => []
  | t :: rest =>
    match dictGet d t with
    | some _ => t :: resolvedPart d rest
    | none => []

/-- The first token of the list missing from the directory, if any. -/
def firstMissing (d : ChanDict) : List String → Option String
  | [] => none
  | t :: rest =>
    match dictGet d t with
    | some _ => firstMissing d rest
    | none => some t

/-- Outcome of a batch given its first missing token. -/
def outcomeOf : Option String → Outcome
  | none => Outcome.ok
  | some t => Outcome.aliasErr t

/-- Hardware operations `powUp` issues for a list of resolved tokens. -/
def powUpOps (numBoards : ℕ) (d : ChanDict) : List String → List Ev
  | [] => []
  | t :: rest =>
    match dictGet d t with
    | some c =>
      Ev.powerUp (addrOf numBoards c) :: Ev.getPower (addrOf numBoards c)
        :: powUpOps numBoards d rest
    | none => powUpOps numBoards d rest

/-- Hardware operations `updateV` issues for a list of resolved tokens. -/
def updateVOps (numBoards : ℕ) (d : ChanDict) (raw : ℤ) : List String → List Ev
  | [] => []
  | t :: rest =>
    match dictGet d t with
    | some c =>
      Ev.writeReg (addrOf numBoards c) raw :: Ev.readV (addrOf numBoards c)
        :: updateVOps numBoards d raw rest
    | none => updateVOps numBoards d raw rest

/-- One-entry directory used in the batch counterexample and witness. -/
def exampleDict : ChanDict := [("a", (0, 0, 0))]

/-- `cmdUI.numT` (and the identical sensor-bus prologue of `readT` and
`serT`): read the count via `initT`; when it is negative the command
executes `raise RuntimeError(...)` whose following line
`cntrl.close(); exit(1)` is unreachable, so no close happens; otherwise it
prints and closes. -/
def numTRun (numBoards : ℕ) (regs : ℕ → ℕ) : List Ev :=
  let numTemps := initT numBoards regs
  if numTemps < 0 then [Ev.readCount, Ev.raiseError]
  else [Ev.readCount, Ev.close]

/-- Register file whose bus-scan count register (address 32 for 4 boards)
reports `-1` sensors (biased transport value `32767`). -/
def regsScanFail : ℕ → ℕ := fun a => if a = 32 then 32767 else 0

/-- Register file with one sensor on the bus (count register holds
`32769`, i.e. de-biased `1`) and all serial registers zero. -/
def regsCount1 : ℕ → ℕ := fun a => if a = 32 then 32769 else 0

/-- Register file holding the spec's example serial
`[0x28FF, 0x641A, 0x0500, 0x0000]` in the four registers of sensor 0
(addresses 33..36 for 4 boards). -/
def regsSerialEx : ℕ → ℕ :=
  fun a => if a = 33 then 0x28FF else if a = 34 then 0x641A
           else if a = 35 then 0x0500 else 0

end APTDac

namespace APTDac

/-- `intTrunc` agrees with the floor on nonnegative arguments. -/
lemma intTrunc_eq_floor {q : ℚ} (h : 0 ≤ q) : intTrunc q = ⌊q⌋ := by
  simp [intTrunc, h]

/-- `convertToRawV` fails exactly on voltages outside `[0, 60]`. -/
lemma convertToRawV_eq_none_iff (w : ℚ) :
    convertToRawV w = none ↔ (w < 0 ∨ w > 60) := by
  by_cases h : (w < 0 ∨ w > 60) <;> simp [convertToRawV, h]

/-- On `[0, 60]` the truncation is a floor and is at most `4096`. -/
lemma convertToRawV_trunc_le {v : ℚ} (h0 : 0 ≤ v) (h60 : v ≤ 60) :
    0 ≤ intTrunc (v * 4096.0 / 60.0) ∧ intTrunc (v * 4096.0 / 60.0) ≤ 4096 := by
  have harg0 : (0:ℚ) ≤ v * 4096.0 / 60.0 := by positivity
  have harg : v * 4096.0 / 60.0 ≤ 4096 := by
    rw [div_le_iff₀ (by norm_num : (0:ℚ) < 60.0)]
    nlinarith
  rw [intTrunc_eq_floor harg0]
  constructor
  · exact Int.le_floor.mpr (by exact_mod_cast harg0)
  · calc ⌊v * 4096.0 / 60.0⌋ ≤ ⌊(4096 : ℚ)⌋ := Int.floor_le_floor harg
    _ = 4096 := by norm_num

/-- Value of `convertToRawV` on `[0, 60]`. -/
lemma convertToRawV_of_mem {v : ℚ} (h0 : 0 ≤ v) (h60 : v ≤ 60) :
    convertToRawV v =
      some (if intTrunc (v * 4096.0 / 60.0) = 4096 then 4095
            else intTrunc (v * 4096.0 / 60.0)) := by
  have hng : ¬ (v < 0 ∨ v > 60) := by
    push_neg
    exact ⟨h0, h60⟩
  obtain ⟨_, hle⟩ := convertToRawV_trunc_le h0 h60
  simp only [convertToRawV, hng, if_false]
  congr 1
  by_cases h : intTrunc (v * 4096.0 / 60.0) = 4096
  · simp [h]
  · have : intTrunc (v * 4096.0 / 60.0) < 4096 := lt_of_le_of_ne hle h
    simp [h, this]

/-- C1: `convertToRawV` fails exactly when the input voltage is outside
`[0, 60]` (in particular at `-0.001` and `60.001`, succeeding at `0` and
`60`); on `[0, 60]` it returns the truncation toward zero of
`v * 4096.0/60.0`, with a truncation result of `4096` clamped to `4095`,
so every returned code lies in `[0, 4095]`. -/
theorem C1_convertToRawV (v : ℚ) (h0 : 0 ≤ v) (h60 : v ≤ 60) :
    (∀ w : ℚ, convertToRawV w = none ↔ (w < 0 ∨ w > 60)) ∧
    convertToRawV (-0.001) = none ∧
    convertToRawV 60.001 = none ∧
    convertToRawV 0 = some 0 ∧
    convertToRawV 60 = some 4095 ∧
    convertToRawV v =
      some (if intTrunc (v * 4096.0 / 60.0) = 4096 then 4095
            else intTrunc (v * 4096.0 / 60.0)) ∧
    (∀ r : ℤ, convertToRawV v = some r → 0 ≤ r ∧ r ≤ 4095) := by
  refine ⟨convertToRawV_eq_none_iff, ?_, ?_, ?_, ?_, convertToRawV_of_mem h0 h60, ?_⟩
  · rw [convertToRawV_eq_none_iff]
    left
    norm_num
  · rw [convertToRawV_eq_none_iff]
    right
    norm_num
  · rw [convertToRawV_of_mem le_rfl (by norm_num)]
    norm_num [intTrunc]
  · rw [convertToRawV_of_mem (by norm_num) le_rfl]
    norm_num [intTrunc]
  · intro r hr
    rw [convertToRawV_of_mem h0 h60] at hr
    obtain ⟨hge, hle⟩ := convertToRawV_trunc_le h0 h60
    by_cases h : intTrunc (v * 4096.0 / 60.0) = 4096 <;>
      simp only [h, if_true, if_false, Option.some.injEq] at hr <;> omega

/-- Witness for C1 at `v = 30`: the hypotheses hold and the theorem yields
the raw code `2048`. -/
theorem C1_witness :
    (0:ℚ) ≤ 30 ∧ (30:ℚ) ≤ 60 ∧ convertToRawV 30 = some 2048 := by
  have h := (C1_convertToRawV 30 (by norm_num) (by norm_num)).2.2.2.2.2.1
  refine ⟨by norm_num, by norm_num, ?_⟩
  rw [h]
  norm_num [intTrunc]

/-- C2: `DacMaster.address` computes
`boardCount*8*sipmChan + (8*board + 4*dacChip + channel)` for every
coordinate (the Python default `sipmChan=0` is passed explicitly here);
with 4 boards, `(board 0, chip 0, channel 0)` maps to `0` and
`(board 3, chip 1, channel 3)` maps to `31`. -/
theorem C2_address (numBoards dacChan dacNum boardNum sipmChan : ℕ) :
    address numBoards dacChan dacNum boardNum sipmChan
      = numBoards*8*sipmChan + (8*boardNum + 4*dacNum + dacChan) ∧
    address 4 0 0 0 0 = 0 ∧
    address 4 3 1 3 0 = 31 := by
  refine ⟨?_, by decide, by decide⟩
  unfold address
  ring

/-- C3 counterexample: with the out-of-width component `dacChan = 4`
(4 channels per chip), `DacMaster.address` does not fail: it silently
computes `4`, the very address of the in-bounds coordinate
`(dacChan 0, dacNum 1, board 0)`. -/
theorem C3_counterexample :
    address 4 4 0 0 0 = address 4 0 1 0 0 ∧ address 4 4 0 0 0 = 4 := by
  decide

/-- C3 amended: `DacMaster.address` performs no bounds validation: it is a
total function computing the radix formula for every input, so an
out-of-width channel aliases the next chip's first channel and an
out-of-width chip aliases the next board's first chip, instead of failing
with an `AddressOutOfRange` error. -/
theorem C3_amended (numBoards dacChan dacNum boardNum sipmChan : ℕ) :
    address numBoards dacChan dacNum boardNum sipmChan
      = numBoards*8*sipmChan + (8*boardNum + 4*dacNum + dacChan) ∧
    address numBoards 4 dacNum boardNum sipmChan
      = address numBoards 0 (dacNum+1) boardNum sipmChan ∧
    address numBoards dacChan 2 boardNum sipmChan
      = address numBoards dacChan 0 (boardNum+1) sipmChan := by
  refine ⟨?_, ?_, ?_⟩ <;> (unfold address; ring)

/-- C5: for every raw code `x ≤ 4095` the round trip
`convertToRawV (convertToActualV x)` returns `x`, and at the boundary
`convertToRawV 60 = some 4095`. -/
theorem C5_roundTrip (x : ℕ) (hx : x ≤ 4095) :
    convertToRawV (convertToActualV ((x : ℕ) : ℚ)) = some ((x : ℕ) : ℤ) ∧
    convertToRawV 60 = some 4095 := by
  constructor
  · have hxq : ((x : ℕ) : ℚ) ≤ 4095 := by exact_mod_cast hx
    have h0 : (0:ℚ) ≤ convertToActualV ((x : ℕ) : ℚ) := by
      unfold convertToActualV
      positivity
    have h60 : convertToActualV ((x : ℕ) : ℚ) ≤ 60 := by
      unfold convertToActualV
      rw [div_le_iff₀ (by norm_num : (0:ℚ) < 4096.0)]
      nlinarith
    rw [convertToRawV_of_mem h0 h60]
    have harg : convertToActualV ((x : ℕ) : ℚ) * 4096.0 / 60.0 = ((x : ℕ) : ℚ) := by
      unfold convertToActualV
      field_simp
    have htr : intTrunc (convertToActualV ((x : ℕ) : ℚ) * 4096.0 / 60.0) = (x : ℤ) := by
      rw [harg, intTrunc_eq_floor (by positivity)]
      exact_mod_cast Int.floor_natCast x
    rw [htr]
    have hne : (x : ℤ) ≠ 4096 := by omega
    simp [hne]
  · rw [convertToRawV_of_mem (by norm_num) le_rfl]
    norm_num [intTrunc]

/-- Witness for C5 at `x = 4095`. -/
theorem C5_witness :
    (4095 : ℕ) ≤ 4095 ∧
    (convertToRawV (convertToActualV (((4095 : ℕ) : ℕ) : ℚ)) = some (((4095 : ℕ) : ℕ) : ℤ) ∧
     convertToRawV 60 = some 4095) :=
  ⟨le_rfl, C5_roundTrip 4095 (by norm_num)⟩

/-- C6: `convertToDegC` returns the sentinel `-127` for every signed
16-bit input at most `-7040` and `raw/128` above it; in particular
`-7040 ↦ -127`, `-7041 ↦ -127`, `0 ↦ 0`, `128 ↦ 1`. -/
theorem C6_convertToDegC (r : ℤ) (hlo : -32768 ≤ r) (hhi : r ≤ 32767) :
    (r ≤ -7040 → convertToDegC r = -127) ∧
    (-7040 < r → convertToDegC r = (r : ℚ) / 128) ∧
    convertToDegC (-7040) = -127 ∧
    convertToDegC (-7041) = -127 ∧
    convertToDegC 0 = 0 ∧
    convertToDegC 128 = 1 := by
  refine ⟨?_, ?_, ?_, ?_, ?_, ?_⟩
  · intro h
    simp [convertToDegC, h]
  · intro h
    have hn : ¬ r ≤ -7040 := by omega
    simp only [convertToDegC, hn, if_false]
    rw [show (0.0078125 : ℚ) = 1/128 by norm_num]
    ring
  · norm_num [convertToDegC]
  · norm_num [convertToDegC]
  · norm_num [convertToDegC]
  · norm_num [convertToDegC]

/-- Witness for C6 at `r = 0`. -/
theorem C6_witness :
    (-32768 : ℤ) ≤ 0 ∧ (0 : ℤ) ≤ 32767 ∧ convertToDegC 0 = 0 :=
  ⟨by norm_num, by norm_num,
    (C6_convertToDegC 0 (by norm_num) (by norm_num)).2.2.2.2.1⟩

/-- C7 counterexample: for 4 boards the claimed concrete addresses are
wrong.  The claimed formula `boardCount*2*4` itself gives `32`, not `64`,
and the code reads the count at `32`, sensor 0 offset 0 at `33` (not
`65`), and sensor 2 offset 3 at `44` (not `76`). -/
theorem C7_counterexample :
    tempCountAddress 4 = 32 ∧ initT_address 4 ≠ 64 ∧
    getT_address 4 0 = 33 ∧ getT_address 4 0 ≠ 65 ∧
    getTSerial_address 4 2 + 3 = 44 ∧ tempSensorAddress 4 2 3 ≠ 76 := by
  decide

/-- C7 amended: the sensor-count register address is `boardCount*2*4` (one
past the DAC zone) and sensor `i` offset `r ∈ {0,1,2,3}` lives at
`1 + boardCount*2*4 + i*4 + r`; these are exactly the addresses read by
`initT`, `getTSerial` and `getT`; for 4 boards the count register is at
`32`, sensor 0 offset 0 at `33` and sensor 2 offset 3 at `44`. -/
theorem C7_amended (numBoards i r : ℕ) (hr : r < 4) :
    initT_address numBoards = tempCountAddress numBoards ∧
    getT_address numBoards i = tempSensorAddress numBoards i 0 ∧
    getTSerial_address numBoards i + r = tempSensorAddress numBoards i r ∧
    (∀ regs : ℕ → ℕ,
      initT numBoards regs = (regs (tempCountAddress numBoards) : ℤ) - 32768) ∧
    (∀ regs : ℕ → ℕ,
      getTSerial numBoards regs i =
        toBytes2BE (regs (tempSensorAddress numBoards i 0)) ++
        toBytes2BE (regs (tempSensorAddress numBoards i 1)) ++
        toBytes2BE (regs (tempSensorAddress numBoards i 2)) ++
        toBytes2BE (regs (tempSensorAddress numBoards i 3))) ∧
    (∀ regs : ℕ → ℕ,
      getT numBoards regs ((i : ℕ) : ℤ) =
        Except.ok ((regs (tempSensorAddress numBoards i 0) : ℤ) - 32768)) ∧
    tempCountAddress 4 = 32 ∧ tempSensorAddress 4 0 0 = 33 ∧
    tempSensorAddress 4 2 3 = 44 := by
  have haddr : ∀ k : ℕ, getTSerial_address numBoards i + k
      = tempSensorAddress numBoards i k := by
    intro k
    unfold getTSerial_address tempSensorAddress
    ring
  refine ⟨rfl, ?_, haddr r, fun _ => rfl, ?_, ?_, by decide, by decide, by decide⟩
  · unfold getT_address tempSensorAddress
    ring
  · intro regs
    have h0 := haddr 0
    have h1 := haddr 1
    have h2 := haddr 2
    have h3 := haddr 3
    simp only [Nat.add_zero] at h0
    simp only [getTSerial, List.range_succ, List.range_zero, List.map_append,
      List.map_cons, List.map_nil, List.flatten_append, List.flatten_cons,
      List.flatten_nil, List.nil_append, List.append_nil, Nat.add_zero,
      List.append_assoc]
    rw [h3, h2, h1, h0]
  · intro regs
    have hnn : ¬ ((i : ℕ) : ℤ) < 0 := by
      simp
    simp only [getT, hnn, if_false, Int.toNat_natCast]
    have := haddr 0
    simp only [Nat.add_zero] at this
    rw [show getT_address numBoards i = tempSensorAddress numBoards i 0 by
      unfold getT_address tempSensorAddress; ring]

/-- Witness for C7 at `numBoards = 4`, `i = 2`, `r = 3`. -/
theorem C7_witness :
    (3 : ℕ) < 4 ∧ getTSerial_address 4 2 + 3 = tempSensorAddress 4 2 3 :=
  ⟨by decide, (C7_amended 4 2 3 (by decide)).2.2.1⟩

/-- C8 counterexample: with one sensor enumerated on the bus
(`initT = 1`), `getTSerial` at the out-of-range index `1` does not fail
with an `IndexOutOfRange` error: it reads the four (empty) registers of
the nonexistent sensor and returns an 8-byte serial of zeros. -/
theorem C8_counterexample :
    initT 4 regsCount1 = 1 ∧
    getTSerial 4 regsCount1 1 = [0, 0, 0, 0, 0, 0, 0, 0] := by
  decide

/-- C8 amended: `getTSerial` performs no index-bounds check against the
sensor count: for every index `i` (enumerated or not) it reads the four
consecutive 16-bit registers starting at `1 + boardCount*2*4 + 4*i` and
returns the 8-byte serial, most-significant register first, each register
big-endian (the spec's example registers reconstruct to
`28 FF 64 1A 05 00 00 00`). -/
theorem C8_amended (numBoards i : ℕ) (regs : ℕ → ℕ) :
    getTSerial numBoards regs i =
      toBytes2BE (regs (getTSerial_address numBoards i)) ++
      toBytes2BE (regs (getTSerial_address numBoards i + 1)) ++
      toBytes2BE (regs (getTSerial_address numBoards i + 2)) ++
      toBytes2BE (regs (getTSerial_address numBoards i + 3)) ∧
    (getTSerial numBoards regs i).length = 8 ∧
    getTSerial 4 regsSerialEx 0 = [0x28, 0xFF, 0x64, 0x1A, 0x05, 0x00, 0x00, 0x00] := by
  have hmain : getTSerial numBoards regs i =
      toBytes2BE (regs (getTSerial_address numBoards i)) ++
      toBytes2BE (regs (getTSerial_address numBoards i + 1)) ++
      toBytes2BE (regs (getTSerial_address numBoards i + 2)) ++
      toBytes2BE (regs (getTSerial_address numBoards i + 3)) := by
    simp only [getTSerial, List.range_succ, List.range_zero, List.map_append,
      List.map_cons, List.map_nil, List.flatten_append, List.flatten_cons,
      List.flatten_nil, List.nil_append, List.append_nil, Nat.add_zero,
      List.append_assoc]
  refine ⟨hmain, ?_, by decide⟩
  rw [hmain]
  simp [toBytes2BE]

/-- The `powUp` token loop performs the operations of the longest
resolvable prefix and aborts at the first missing alias. -/
lemma powUpLoop_eq (numBoards : ℕ) (d : ChanDict) (ts : List String) :
    powUpLoop numBoards d ts =
      (powUpOps numBoards d (resolvedPart d ts) ++ [Ev.close],
       outcomeOf (firstMissing d ts)) := by
  induction ts with
  | nil => simp [powUpLoop, resolvedPart, firstMissing, powUpOps, outcomeOf]
  | cons t rest ih =>
    cases h : dictGet d t with
    | none => simp [powUpLoop, resolvedPart, firstMissing, powUpOps, outcomeOf, h]
    | some c => simp [powUpLoop, resolvedPart, firstMissing, powUpOps, h, ih]

/-- The `updateV` token loop, on an in-range voltage, performs the
operations of the longest resolvable prefix and aborts at the first
missing alias. -/
lemma updateVLoop_eq (numBoards : ℕ) (d : ChanDict) (newV : ℚ) (raw : ℤ)
    (hv : convertToRawV newV = some raw) (ts : List String) :
    updateVLoop numBoards d newV ts =
      (updateVOps numBoards d raw (resolvedPart d ts) ++ [Ev.close],
       outcomeOf (firstMissing d ts)) := by
  induction ts with
  | nil => simp [updateVLoop, resolvedPart, firstMissing, updateVOps, outcomeOf]
  | cons t rest ih =>
    cases h : dictGet d t with
    | none => simp [updateVLoop, resolvedPart, firstMissing, updateVOps, outcomeOf, h]
    | some c => simp [updateVLoop, resolvedPart, firstMissing, updateVOps, h, hv, ih]

/-- C4 counterexample: with the directory holding only alias `a`, the
batch `powerUp a b` issues the hardware power-up (and coil read-back) for
`a` before aborting on the unresolved alias `b`: operations on
previously-matched tokens are performed, not withheld. -/
theorem C4_counterexample :
    powUpLoop 4 exampleDict ["a", "b"] =
      ([Ev.powerUp 0, Ev.getPower 0, Ev.close], Outcome.aliasErr "b") ∧
    Ev.powerUp 0 ∈ (powUpLoop 4 exampleDict ["a", "b"]).1 := by
  decide

/-- C4 amended: alias resolution is interleaved with hardware I/O, one
token at a time: each token found in the directory has its hardware
operations issued immediately, and on the first missing token the batch
aborts with an alias-not-found error (closing the transport), leaving the
operations already issued for the earlier matched tokens performed. -/
theorem C4_amended (numBoards : ℕ) (d : ChanDict) (ts : List String)
    (newV : ℚ) (raw : ℤ) (hv : convertToRawV newV = some raw) :
    powUpLoop numBoards d ts =
      (powUpOps numBoards d (resolvedPart d ts) ++ [Ev.close],
       outcomeOf (firstMissing d ts)) ∧
    updateVLoop numBoards d newV ts =
      (updateVOps numBoards d raw (resolvedPart d ts) ++ [Ev.close],
       outcomeOf (firstMissing d ts)) :=
  ⟨powUpLoop_eq numBoards d ts, updateVLoop_eq numBoards d newV raw hv ts⟩

/-- Witness for C4 at 4 boards, the one-entry directory, batch `["a"]` and
`newV = 30` (raw code 2048). -/
theorem C4_witness :
    convertToRawV 30 = some 2048 ∧
    (powUpLoop 4 exampleDict ["a"] =
       (powUpOps 4 exampleDict (resolvedPart exampleDict ["a"]) ++ [Ev.close],
        outcomeOf (firstMissing exampleDict ["a"])) ∧
     updateVLoop 4 exampleDict 30 ["a"] =
       (updateVOps 4 exampleDict 2048 (resolvedPart exampleDict ["a"]) ++ [Ev.close],
        outcomeOf (firstMissing exampleDict ["a"]))) := by
  have hv : convertToRawV 30 = some 2048 := by
    rw [convertToRawV_of_mem (by norm_num) (by norm_num)]
    norm_num [intTrunc]
  exact ⟨hv, C4_amended 4 exampleDict ["a"] 30 2048 hv⟩

/-- The part of a line before its first `#` does not depend on what
follows the `#`. -/
lemma takeBeforeHash_indep (pre post post' : List Char) :
    takeBeforeHash (pre ++ '#' :: post) = takeBeforeHash (pre ++ '#' :: post') := by
  induction pre with
  | nil => simp [takeBeforeHash]
  | cons c cs ih => by_cases h : c = '#' <;> simp [takeBeforeHash, h, ih]

/-- Updating a key and reading it back yields the new value
(last-write-wins). -/
lemma dictGet_dictUpdate {α : Type} (d : List (String × α)) (a : String) (v : α) :
    dictGet (dictUpdate d a v) a = some v := by
  induction d with
  | nil => simp [dictGet, dictUpdate]
  | cons p rest ih =>
    obtain ⟨b, w⟩ := p
    by_cases h : b = a <;> simp [dictGet, dictUpdate, h, ih]

/-- C9 counterexample: a non-blank, non-comment line consisting of an
alias token and no value tokens does not make directory construction
fail: the DAC-directory loop of `cmdUI.init` accepts it and binds the
alias to the empty coordinate tuple. -/
theorem C9_counterexample :
    parseDac ["foo".toList] = Except.ok [("foo", ([] : List ℤ))] := by
  rfl

/-- C9 amended: the DAC directory parser does not fail on a line with an
alias but no value tokens: it records the alias with an empty coordinate
tuple.  Comment text after `#` and blank lines are ignored, and a later
entry with the same alias overwrites the earlier one (last-write-wins). -/
theorem C9_amended (d : DacDict) (a : String) (v : List ℤ)
    (pre post post' : List Char) :
    parseDacLine d (pre ++ '#' :: post) = parseDacLine d (pre ++ '#' :: post') ∧
    parseDacLine d [] = Except.ok d ∧
    parseDacLine d ("foo".toList) = Except.ok (dictUpdate d "foo" []) ∧
    dictGet (dictUpdate d a v) a = some v ∧
    parseDac ["biasA 0 1 2".toList, "# comment".toList, "".toList,
              "biasB 3 0 1".toList]
      = Except.ok [("biasA", [0, 1, 2]), ("biasB", [3, 0, 1])] ∧
    parseDac ["x 1".toList, "x 2".toList] = Except.ok [("x", [2])] := by
  refine ⟨?_, rfl, ?_, dictGet_dictUpdate d a v, by rfl, by rfl⟩
  · unfold parseDacLine
    rw [takeBeforeHash_indep pre post post']
  · have h1 : splitWS (takeBeforeHash ("foo".toList)) = [['f', 'o', 'o']] := by
      decide
    unfold parseDacLine
    rw [h1]
    rfl

/-- C10: when the bus scan fails (`initT` returns the negative count
`-1`), `cmdUI.numT` (and the identical prologue of `readT`) raises
`RuntimeError` before the `cntrl.close(); exit(1)` written on the next
line, which is unreachable: the run's event trace contains no close, so
the serial transport is abandoned open on this exit path. -/
theorem C10_code_bug :
    initT 4 regsScanFail = -1 ∧
    numTRun 4 regsScanFail = [Ev.readCount, Ev.raiseError] ∧
    Ev.close ∉ numTRun 4 regsScanFail := by
  decide

end APTDac
